import Mathlib

/-!
Shallow embedding of the haircut-search core of `src/ity/app/main.py`.

Modelling conventions:
* Python floats are modelled as `ℚ`; Python ints as `ℤ`/`ℕ`.
* `datetime` values are modelled as integers (seconds since an arbitrary
  epoch, UTC); `timedelta(hours=24)` is `86400`, `timedelta(days=1)` is
  `86400`, and `replace(hour=9, minute=0, second=0, microsecond=0)` becomes
  floor-day arithmetic.  `datetime.utcnow()` is an explicit parameter `now`
  (the code reads the clock several times within one request; the calls are
  modelled as one instant).
* Exceptions are modelled with `Except PyErr`; a Python `try/except` is an
  explicit `match` on the `Except` value.
* The third-party pieces — `dateutil.parser.parse` and
  `rapidfuzz.fuzz.partial_ratio` — are external collaborators and enter as
  function parameters (`dtp`, `fuzz`).
* The two mock connectors draw random data; the aggregation pipeline is
  therefore modelled as a function of the concatenated list of raw slots the
  connectors returned (the spec treats connectors as external data sources).
* Python string/list primitives (`lower`, `strip`, `split`, `replace`,
  substring `in`, slicing, `x or 0.0`, f-string interpolation of `None`)
  are embedded by the `py*` helpers below, each faithful to CPython
  semantics on the relevant inputs (ASCII text).
-/

namespace ITY

/-- A Python exception, as far as the modelled code can raise one. -/
inductive PyErr where
  | indexError
  | parseError
deriving DecidableEq, Repr

/-- Python `str.lower()` on a character (ASCII). -/
def pyCharLower (c : Char) : Char := c.toLower

/-- Python `s.lower()`. -/
def pyLower (s : String) : String := String.mk (s.toList.map pyCharLower)

/-- Python `s.strip()` (no argument): whitespace removed from both ends. -/
def pyTrim (s : String) : String :=
  String.mk (((s.toList.dropWhile Char.isWhitespace).reverse.dropWhile Char.isWhitespace).reverse)

/-- Python `s.strip(chars)`: every character of `chars` removed from both
ends of `s` (leading and trailing). -/
def pyStripChars (chars : List Char) (s : List Char) : List Char :=
  ((s.dropWhile (fun c => chars.contains c)).reverse.dropWhile (fun c => chars.contains c)).reverse

/-- Python `s.replace(u, "")` for a one-character pattern `u` (the code only
replaces the single characters `$` and `,` by the empty string). -/
def pyRemoveChar (u : Char) (s : String) : String :=
  String.mk (s.toList.filter (fun c => c ≠ u))

/-- Helper for Python `s.split()`: accumulate the current token (reversed)
while scanning; tokens are maximal runs of non-whitespace. -/
def wsSplitAux : List Char → List Char → List (List Char)
  | [], acc => if acc.isEmpty then [] else [acc.reverse]
  | c :: cs, acc =>
    if c.isWhitespace then
      if acc.isEmpty then wsSplitAux cs [] else acc.reverse :: wsSplitAux cs []
    else wsSplitAux cs (c :: acc)

/-- Python `s.split()` (no argument): split on whitespace runs, no empty
tokens. -/
def pySplitWs (s : String) : List String := (wsSplitAux s.toList []).map String.mk

/-- The suffix of `s` after the first occurrence of `sep`, or `none` when
`sep` does not occur: this is Python `s.split(sep, 1)[1]` guarded by
`sep in s`. -/
def afterFirst (sep : List Char) : List Char → Option (List Char)
  | [] => if sep.isPrefixOf ([] : List Char) then some [] else none
  | c :: cs =>
    if sep.isPrefixOf (c :: cs) then some ((c :: cs).drop sep.length)
    else afterFirst sep cs

/-- Python `needle in hay` for strings: substring occurrence. -/
def pyInStr (needle hay : String) : Bool := (afterFirst needle.toList hay.toList).isSome

/-- Python `token.isdigit()` (ASCII digits). -/
def pyIsDigit (t : String) : Bool := !t.isEmpty && t.toList.all Char.isDigit

/-- Python `int(token)` for a token of decimal digits. -/
def pyInt (t : String) : ℕ := t.toList.foldl (fun n c => 10 * n + (c.toNat - 48)) 0

/-- Python `x or 0.0` where `x : Optional[float]`: `None` and `0.0` are
falsy and give the default `0.0`. -/
def pyOrZero (x : Option ℚ) : ℚ :=
  match x with
  | none => 0
  | some v => if v = 0 then 0 else v

/-- Python f-string interpolation of an `Optional[str]`: `None` prints as
the text `"None"`. -/
def pyStrOfOpt (x : Option String) : String :=
  match x with
  | none => "None"
  | some s => s

/-- Python list slicing `l[:k]` for an `int` bound `k`: for `k ≥ 0` the
first `k` elements; for `k < 0` the bound counts from the end
(`max(len(l) + k, 0)` elements). -/
def pyslice {α : Type} (l : List α) (k : ℤ) : List α :=
  if 0 ≤ k then l.take k.toNat else l.take (l.length - (-k).toNat)

/-- Round half to even (Python `round` tie-breaking) to an integer. -/
def roundHalfEven (x : ℚ) : ℤ :=
  let f : ℤ := ⌊x⌋
  let r : ℚ := x - f
  if r < 1 / 2 then f
  else if 1 / 2 < r then f + 1
  else if f % 2 = 0 then f else f + 1

/-- Python `round(x, 4)`. -/
def pyRound4 (x : ℚ) : ℚ := (roundHalfEven (x * 10000) : ℚ) / 10000

/-- `AppointmentSlot` (main.py lines 23–37): the raw slot a connector
returns.  `score` is the one mutable field, `None` until the pipeline
fills it. -/
structure AppointmentSlot where
  provider : String
  provider_location_id : String
  provider_location_name : String
  stylist_name : Option String := none
  service_name : String
  start_time : ℤ
  duration_minutes : ℤ
  price_cents : ℤ
  currency : String := "USD"
  latitude : Option ℚ := none
  longitude : Option ℚ := none
  provider_url : Option String := none
  provider_internal_id : Option String := none
  score : Option ℚ := none
deriving DecidableEq, Repr

/-- `SearchRequest` (main.py lines 40–49). -/
structure SearchRequest where
  query : Option String := none
  when : Option String := none
  budget_max : Option ℚ := none
  distance_miles_max : Option ℚ := none
  service : Option String := none
  stylist : Option String := none
  lat : Option ℚ := none
  lng : Option ℚ := none
  limit : ℤ := 25
deriving DecidableEq, Repr

/-- `NormalizedSlot` (main.py lines 115–128). -/
structure NormalizedSlot where
  id : String
  provider : String
  location_name : String
  service_name : String
  stylist_name : Option String
  start_time : ℤ
  duration_minutes : ℤ
  price_cents : ℤ
  currency : String
  latitude : Option ℚ
  longitude : Option ℚ
  book_url : Option String
  score : ℚ
deriving DecidableEq, Repr

/-- The body of the `try:` block of `parse_when_text` (main.py lines
135–143).  `dtp` is `dateutil.parser.parse(raw, fuzzy=True, default=now)`,
an external parser that may raise; `text` is the lowered and stripped
input, `raw` the original (the code hands `dtparse` the original
`when_text`). -/
def parse_when_body (dtp : String → ℤ → Except PyErr ℤ) (now : ℤ)
    (text raw : String) : Except PyErr ℤ :=
  if text = "now" ∨ text = "asap" ∨ text = "today" then .ok now
  else if text = "tomorrow" then .ok ((now.fdiv 86400) * 86400 + 9 * 3600 + 86400)
  else dtp raw now

/-- `parse_when_text` (main.py lines 131–145).  The surrounding
`try/except Exception: return None` is the `match` on `parse_when_body`. -/
def parse_when_text (dtp : String → ℤ → Except PyErr ℤ) (now : ℤ)
    (when_text : Option String) : Except PyErr (Option ℤ) :=
  match when_text with
  | none => .ok none
  | some s =>
    if s = "" then .ok none
    else
      match parse_when_body dtp now (pyTrim (pyLower s)) s with
      | .ok t => .ok (some t)
      | .error _ => .ok none

/-- `price_score` of `compute_score` (main.py line 150):
`max(0.0, 1.0 - (slot.price_cents / 100.0) / 100.0)`. -/
def price_score (slot : AppointmentSlot) : ℚ :=
  max 0 (1 - ((slot.price_cents : ℚ) / 100) / 100)

/-- `early_bonus` of `compute_score` (main.py line 151):
`0.2 if slot.start_time < datetime.utcnow() + timedelta(hours=24) else 0.0`. -/
def early_bonus (now : ℤ) (slot : AppointmentSlot) : ℚ :=
  if slot.start_time < now + 86400 then 2 / 10 else 0

/-- `service_match` of `compute_score` (main.py line 152): the fuzzy
partial-match ratio normalised by 100 when `search.service` is truthy
(non-`None` and non-empty), else `0`. -/
def service_match (fuzz : String → String → ℚ) (slot : AppointmentSlot)
    (search : SearchRequest) : ℚ :=
  match search.service with
  | none => 0
  | some sv => if sv = "" then 0 else fuzz (pyLower sv) (pyLower slot.service_name) / 100

/-- `stylist_match` of `compute_score` (main.py line 153): `1.0` when a
(truthy) stylist was requested, the slot has one, and the lowered request
is a substring of the lowered slot stylist; else `0.0`. -/
def stylist_match (slot : AppointmentSlot) (search : SearchRequest) : ℚ :=
  match search.stylist, slot.stylist_name with
  | some st, some sn =>
    if st = "" ∨ sn = "" then 0
    else if pyInStr (pyLower st) (pyLower sn) then 1 else 0
  | _, _ => 0

/-- `proximity` of `compute_score` (main.py lines 154–156): the guard is
`search.lat is not None and search.lng is not None and slot.latitude and
slot.longitude` — the slot coordinates are tested for Python truthiness,
so a slot coordinate equal to `0.0` leaves `proximity = 0`. -/
def proximity (slot : AppointmentSlot) (search : SearchRequest) : ℚ :=
  match search.lat, search.lng with
  | some qlat, some qlng =>
    match slot.latitude, slot.longitude with
    | some la, some lo =>
      if la = 0 ∨ lo = 0 then 0
      else max 0 (1 - (|la - qlat| + |lo - qlng|) / (1 / 10))
    | _, _ => 0
  | _, _ => 0

/-- `compute_score` (main.py lines 148–157). -/
def compute_score (fuzz : String → String → ℚ) (now : ℤ)
    (slot : AppointmentSlot) (search : SearchRequest) : ℚ :=
  pyRound4 (price_score slot + early_bonus now slot
    + (5 / 10) * service_match fuzz slot search
    + (3 / 10) * stylist_match slot search
    + (5 / 10) * proximity slot search)

/-- One iteration of the loop body of `normalize_slots` (main.py lines
162–180): mutate `s.score`, then build the `NormalizedSlot`.  The
f-string id interpolates the optional `provider_internal_id`; the `score`
field is `s.score or 0.0`. -/
def normalize_one (fuzz : String → String → ℚ) (now : ℤ)
    (search : SearchRequest) (s : AppointmentSlot) : NormalizedSlot :=
  let s' : AppointmentSlot := { s with score := some (compute_score fuzz now s search) }
  { id := s'.provider ++ ":" ++ pyStrOfOpt s'.provider_internal_id
    provider := s'.provider
    location_name := s'.provider_location_name
    service_name := s'.service_name
    stylist_name := s'.stylist_name
    start_time := s'.start_time
    duration_minutes := s'.duration_minutes
    price_cents := s'.price_cents
    currency := s'.currency
    latitude := s'.latitude
    longitude := s'.longitude
    book_url := s'.provider_url
    score := pyOrZero s'.score }

/-- `normalize_slots` (main.py lines 160–181): the appending loop is a
`map` in input order. -/
def normalize_slots (fuzz : String → String → ℚ) (now : ℤ)
    (slots : List AppointmentSlot) (search : SearchRequest) : List NormalizedSlot :=
  slots.map (normalize_one fuzz now search)

/-- `conversational_to_search` (main.py lines 184–213).  The budget loop
keeps the last digit-token below 200; service / when are first-match
substring checks on the lowered query; the stylist block indexes
`split()[0]` of the text after the first `"with "`, which raises
`IndexError` when that text holds no token. -/
def conversational_to_search (query : Option String) : Except PyErr SearchRequest :=
  match query with
  | none => .ok {}
  | some qs =>
    if qs = "" then .ok {}
    else
      let q := pyLower qs
      let budget : Option ℚ :=
        (pySplitWs (pyRemoveChar ',' (pyRemoveChar '$' q))).foldl
          (fun b tok =>
            if pyIsDigit tok then
              if pyInt tok < 200 then some ((pyInt tok : ℚ)) else b
            else b)
          none
      let service : Option String :=
        if pyInStr "fade" q then some "fade"
        else if pyInStr "women" q then some "Women's Cut"
        else if pyInStr "men" q then some "Men's Cut"
        else none
      let whenv : Option String :=
        if pyInStr "today" q ∨ pyInStr "asap" q then some "today"
        else if pyInStr "tomorrow" q then some "tomorrow"
        else none
      let stylistE : Except PyErr (Option String) :=
        match afterFirst "with ".toList q.toList with
        | none => .ok none
        | some rest =>
          match wsSplitAux rest [] with
          | [] => .error .indexError
          | t :: _ => .ok (some (String.mk (pyStripChars ".,!".toList t)))
      match stylistE with
      | .error e => .error e
      | .ok stylist =>
        .ok { query := some qs, budget_max := budget, service := service,
              when := whenv, stylist := stylist, lat := none, lng := none }

/-- The filter loop of `search_haircuts_internal` (main.py lines 251–257):
a slot is kept unless a set budget is exceeded (price in dollars strictly
above `budget_max`) or a resolved time lower bound is missed (start
strictly before it). -/
def keep_slot (budget_max : Option ℚ) (parsed_when : Option ℤ)
    (s : AppointmentSlot) : Bool :=
  (match budget_max with
   | some b => !(decide ((s.price_cents : ℚ) / 100 > b))
   | none => true) &&
  (match parsed_when with
   | some w => !(decide (s.start_time < w))
   | none => true)

/-- The sort key order of `search_haircuts_internal` (main.py line 260):
`key=lambda x: (-x.score, x.price_cents, x.start_time)` compared
lexicographically, i.e. score descending, then price ascending, then
start time ascending. -/
def slot_le (a b : NormalizedSlot) : Prop :=
  b.score < a.score ∨
    (a.score = b.score ∧
      (a.price_cents < b.price_cents ∨
        (a.price_cents = b.price_cents ∧ a.start_time ≤ b.start_time)))

instance : DecidableRel slot_le := fun a b => by
  unfold slot_le; infer_instance

instance : IsTotal NormalizedSlot slot_le where
  total a b := by
    unfold slot_le
    rcases lt_trichotomy a.score b.score with h | h | h
    · exact Or.inr (Or.inl h)
    · rcases lt_trichotomy a.price_cents b.price_cents with h2 | h2 | h2
      · exact Or.inl (Or.inr ⟨h, Or.inl h2⟩)
      · rcases le_total a.start_time b.start_time with h3 | h3
        · exact Or.inl (Or.inr ⟨h, Or.inr ⟨h2, h3⟩⟩)
        · exact Or.inr (Or.inr ⟨h.symm, Or.inr ⟨h2.symm, h3⟩⟩)
      · exact Or.inr (Or.inr ⟨h.symm, Or.inl h2⟩)
    · exact Or.inl (Or.inl h)

instance : IsTrans NormalizedSlot slot_le where
  trans a b c hab hbc := by
    unfold slot_le at hab hbc ⊢
    rcases hab with hab | ⟨habs, hab2⟩
    · rcases hbc with hbc | ⟨hbcs, _⟩
      · exact Or.inl (lt_trans hbc hab)
      · exact Or.inl (hbcs ▸ hab)
    · rcases hbc with hbc | ⟨hbcs, hbc2⟩
      · exact Or.inl (lt_of_lt_of_eq hbc habs.symm)
      · refine Or.inr ⟨habs.trans hbcs, ?_⟩
        rcases hab2 with hab2 | ⟨habp, hab3⟩
        · rcases hbc2 with hbc2 | ⟨hbcp, _⟩
          · exact Or.inl (hab2.trans hbc2)
          · exact Or.inl (hbcp ▸ hab2)
        · rcases hbc2 with hbc2 | ⟨hbcp, hbc3⟩
          · exact Or.inl (lt_of_eq_of_lt habp hbc2)
          · exact Or.inr ⟨habp.trans hbcp, hab3.trans hbc3⟩

/-- `search_haircuts_internal` (main.py lines 240–261), as a function of
the concatenated connector output `raw_results` (the two mock connectors
return random data and are external to the modelled core).  Python's
`list.sort` is a stable sort by the key tuple, which the stable
`insertionSort` by `slot_le` realises; the final `[: search.limit]` is
Python slicing. -/
def search_haircuts_internal (fuzz : String → String → ℚ)
    (dtp : String → ℤ → Except PyErr ℤ) (now : ℤ)
    (raw_results : List AppointmentSlot) (search : SearchRequest) :
    Except PyErr (List NormalizedSlot) :=
  match parse_when_text dtp now search.when with
  | .error e => .error e
  | .ok parsed_when =>
    let filtered := raw_results.filter (keep_slot search.budget_max parsed_when)
    let normalized := normalize_slots fuzz now filtered search
    let sorted := normalized.insertionSort slot_le
    .ok (pyslice sorted search.limit)

/-! ### Concrete instances used to exercise the definitions -/

/-- A fuzzy matcher that always reports ratio 0 (one admissible external
collaborator). -/
def fuzz0 : String → String → ℚ := fun _ _ => 0

/-- A `dateutil` stand-in that always raises (one admissible external
collaborator). -/
def dtp0 : String → ℤ → Except PyErr ℤ := fun _ _ => .error .parseError

/-- A concrete raw slot in the shape the square connector emits. -/
def exSlotA : AppointmentSlot :=
  { provider := "square", provider_location_id := "sq_loc_1",
    provider_location_name := "Downtown Cuts", service_name := "Men's Cut",
    start_time := 200000, duration_minutes := 30, price_cents := 10000,
    provider_internal_id := some "sq_0" }

/-- A second concrete raw slot, pricier and later than `exSlotA`. -/
def exSlotB : AppointmentSlot :=
  { provider := "vagaro", provider_location_id := "vg_loc_1",
    provider_location_name := "Shear Genius", service_name := "Trim",
    start_time := 300000, duration_minutes := 45, price_cents := 20000,
    provider_internal_id := some "vg_0" }

/-- A raw slot whose start time lies one hour before the instant `0`. -/
def slotPast : AppointmentSlot :=
  { provider := "square", provider_location_id := "sq_loc_2",
    provider_location_name := "Clip and Go", service_name := "Kids Cut",
    start_time := -3600, duration_minutes := 30, price_cents := 2500,
    provider_internal_id := some "sq_1" }

/-- A raw slot located exactly at latitude 0.0, longitude 0.0. -/
def slotZero : AppointmentSlot :=
  { provider := "square", provider_location_id := "sq_loc_3",
    provider_location_name := "Fade Factory", service_name := "Fade + Beard",
    start_time := 7200, duration_minutes := 60, price_cents := 4000,
    latitude := some 0, longitude := some 0,
    provider_internal_id := some "sq_2" }

/-- A search issued from latitude 0.0, longitude 0.0. -/
def searchZero : SearchRequest := { lat := some 0, lng := some 0 }

/-- A 40-dollar raw slot, within the 50-dollar budget of `reqBudget`. -/
def exSlotC : AppointmentSlot :=
  { provider := "square", provider_location_id := "sq_loc_1",
    provider_location_name := "Downtown Cuts", service_name := "Fade + Beard",
    start_time := 200000, duration_minutes := 45, price_cents := 4000,
    provider_internal_id := some "sq_3" }

/-- A search whose `limit` is the negative integer `-1`. -/
def reqNegLimit : SearchRequest := { limit := -1 }

/-- A search with a 50-dollar budget. -/
def reqBudget : SearchRequest := { budget_max := some 50 }

/-- The stylist field of an interpreter outcome, `none` on an error. -/
def result_stylist (r : Except PyErr SearchRequest) : Option String :=
  match r with
  | .ok s => s.stylist
  | .error _ => none

/-! ### General lemmas about the embedded operations -/

theorem normalize_one_score (fuzz : String → String → ℚ) (now : ℤ)
    (search : SearchRequest) (s : AppointmentSlot) :
    (normalize_one fuzz now search s).score = compute_score fuzz now s search := by
  show pyOrZero (some (compute_score fuzz now s search)) = compute_score fuzz now s search
  simp only [pyOrZero]
  split_ifs with h
  · exact h.symm
  · rfl

theorem pyslice_sublist {α : Type} (l : List α) (k : ℤ) : List.Sublist (pyslice l k) l := by
  unfold pyslice
  split_ifs <;> exact List.take_sublist _ _

theorem pyslice_nonneg (l : List NormalizedSlot) {k : ℤ} (hk : 0 ≤ k) :
    pyslice l k = l.take k.toNat := by
  unfold pyslice
  rw [if_pos hk]

/-- `slot_le` entails the claimed three-key ordering facts. -/
theorem slot_le_imp {a b : NormalizedSlot} (h : slot_le a b) :
    b.score ≤ a.score ∧ (a.score = b.score → a.price_cents ≤ b.price_cents) ∧
      (a.score = b.score → a.price_cents = b.price_cents → a.start_time ≤ b.start_time) := by
  unfold slot_le at h
  rcases h with h | ⟨hs, hp⟩
  · exact ⟨le_of_lt h, fun he => absurd (he ▸ h) (lt_irrefl _),
      fun he _ => absurd (he ▸ h) (lt_irrefl _)⟩
  · refine ⟨le_of_eq hs.symm, fun _ => ?_, fun _ hpe => ?_⟩
    · rcases hp with hp | ⟨hpe, _⟩
      · exact le_of_lt hp
      · exact le_of_eq hpe
    · rcases hp with hp | ⟨_, ht⟩
      · exact absurd (hpe ▸ hp) (lt_irrefl _)
      · exact ht

/-- The result of the pipeline, unfolded: whatever `parse_when_text`
resolves, the `ok` branch is filter, normalise, sort, slice. -/
theorem search_haircuts_internal_ok {fuzz : String → String → ℚ}
    {dtp : String → ℤ → Except PyErr ℤ} {now : ℤ}
    {raw_results : List AppointmentSlot} {search : SearchRequest}
    {res : List NormalizedSlot}
    (h : search_haircuts_internal fuzz dtp now raw_results search = .ok res) :
    ∃ parsed_when, parse_when_text dtp now search.when = .ok parsed_when ∧
      res = pyslice
        (List.insertionSort slot_le
          (normalize_slots fuzz now
            (raw_results.filter (keep_slot search.budget_max parsed_when)) search))
        search.limit := by
  unfold search_haircuts_internal at h
  cases hp : parse_when_text dtp now search.when with
  | error e => rw [hp] at h; exact absurd h (by simp)
  | ok parsed_when =>
    rw [hp] at h
    simp only [Except.ok.injEq] at h
    exact ⟨parsed_when, rfl, h.symm⟩

/-! ### The claims -/

/-- C1: for every search request (and every connector output, fuzzy
matcher, date parser and clock), the list the aggregation pipeline returns
is sorted by descending score, then ascending `price_cents`, then
ascending `start_time`: over every pair of positions the scores are
non-increasing, prices are non-decreasing among equal scores, and start
times are non-decreasing among equal score and price. -/
theorem C1_pipeline_sorted (fuzz : String → String → ℚ)
    (dtp : String → ℤ → Except PyErr ℤ) (now : ℤ)
    (raw_results : List AppointmentSlot) (search : SearchRequest)
    (res : List NormalizedSlot)
    (h : search_haircuts_internal fuzz dtp now raw_results search = .ok res) :
    res.Pairwise (fun a b =>
      b.score ≤ a.score ∧ (a.score = b.score → a.price_cents ≤ b.price_cents) ∧
        (a.score = b.score → a.price_cents = b.price_cents →
          a.start_time ≤ b.start_time)) := by
  rcases search_haircuts_internal_ok h with ⟨pw, _, rfl⟩
  have hsorted : List.Pairwise slot_le
      (List.insertionSort slot_le
        (normalize_slots fuzz now
          (raw_results.filter (keep_slot search.budget_max pw)) search)) :=
    List.sorted_insertionSort slot_le _
  exact (hsorted.sublist (pyslice_sublist _ _)).imp slot_le_imp

/-- C1 witness: the pipeline on an empty connector output and the default
request returns `[]`, and the sortedness property holds there. -/
theorem C1_pipeline_sorted_witness :
    ([] : List NormalizedSlot).Pairwise (fun a b =>
      b.score ≤ a.score ∧ (a.score = b.score → a.price_cents ≤ b.price_cents) ∧
        (a.score = b.score → a.price_cents = b.price_cents →
          a.start_time ≤ b.start_time)) :=
  C1_pipeline_sorted fuzz0 dtp0 0 [] {} [] rfl

/-- C3 (amended): whenever `request.limit ≥ 0` the pipeline's result has at
most `request.limit` elements, and `request.limit = 0` gives the empty
list.  (For negative limits Python's slice `[: limit]` instead drops the
last `|limit|` elements and the result can be non-empty: see the
counterexample.) -/
theorem C3_limit_truncation (fuzz : String → String → ℚ)
    (dtp : String → ℤ → Except PyErr ℤ) (now : ℤ)
    (raw_results : List AppointmentSlot) (search : SearchRequest)
    (res : List NormalizedSlot) (hk : 0 ≤ search.limit)
    (h : search_haircuts_internal fuzz dtp now raw_results search = .ok res) :
    (res.length : ℤ) ≤ search.limit ∧ (search.limit = 0 → res = []) := by
  rcases search_haircuts_internal_ok h with ⟨pw, _, rfl⟩
  rw [pyslice_nonneg _ hk]
  constructor
  · calc ((List.take search.limit.toNat _).length : ℤ)
        ≤ (search.limit.toNat : ℤ) := by
          exact_mod_cast List.length_take_le _ _
      _ = search.limit := Int.toNat_of_nonneg hk
  · intro h0
    rw [h0]
    rfl

/-- C3 witness: with the default request (limit 25) and no connector
results, the pipeline's output length is within the limit. -/
theorem C3_limit_truncation_witness :
    ((([] : List NormalizedSlot).length : ℤ) ≤ ({} : SearchRequest).limit) ∧
      (({} : SearchRequest).limit = 0 → ([] : List NormalizedSlot) = []) :=
  C3_limit_truncation fuzz0 dtp0 0 [] {} [] (by decide) rfl

/-- C3 counterexample: with `limit = -1` (which is ≤ 0) and two surviving
slots the pipeline returns a one-element list, not the empty list the
claim requires (and its length 1 is not ≤ -1). -/
theorem C3_negative_limit_counterexample :
    reqNegLimit.limit ≤ 0 ∧
      search_haircuts_internal fuzz0 dtp0 0 [exSlotA, exSlotB] reqNegLimit =
        .ok [normalize_one fuzz0 0 reqNegLimit exSlotA] ∧
      [normalize_one fuzz0 0 reqNegLimit exSlotA] ≠ ([] : List NormalizedSlot) := by
  refine ⟨by decide, ?_, by simp⟩
  have hA : compute_score fuzz0 0 exSlotA reqNegLimit = 0 := by
    unfold compute_score price_score early_bonus service_match stylist_match
      proximity fuzz0 exSlotA reqNegLimit pyRound4 roundHalfEven
    norm_num
  have hB : compute_score fuzz0 0 exSlotB reqNegLimit = 0 := by
    unfold compute_score price_score early_bonus service_match stylist_match
      proximity fuzz0 exSlotB reqNegLimit pyRound4 roundHalfEven
    norm_num
  have hle : slot_le (normalize_one fuzz0 0 reqNegLimit exSlotA)
      (normalize_one fuzz0 0 reqNegLimit exSlotB) := by
    refine Or.inr ⟨?_, Or.inl (by decide)⟩
    rw [normalize_one_score, normalize_one_score, hA, hB]
  show Except.ok (pyslice (List.insertionSort slot_le
      [normalize_one fuzz0 0 reqNegLimit exSlotA,
       normalize_one fuzz0 0 reqNegLimit exSlotB]) (-1)) = _
  rw [show List.insertionSort slot_le
      [normalize_one fuzz0 0 reqNegLimit exSlotA,
       normalize_one fuzz0 0 reqNegLimit exSlotB] =
      [normalize_one fuzz0 0 reqNegLimit exSlotA,
       normalize_one fuzz0 0 reqNegLimit exSlotB] from by
    simp only [List.insertionSort, List.orderedInsert_nil, List.orderedInsert,
      if_pos hle]]
  rfl

/-- C4: whenever the request carries a budget `B`, every slot in the
pipeline's result has `price_cents / 100 ≤ B` (over-budget slots are
dropped by the filter before scoring). -/
theorem C4_budget_respected (fuzz : String → String → ℚ)
    (dtp : String → ℤ → Except PyErr ℤ) (now : ℤ)
    (raw_results : List AppointmentSlot) (search : SearchRequest)
    (res : List NormalizedSlot) (B : ℚ) (hB : search.budget_max = some B)
    (h : search_haircuts_internal fuzz dtp now raw_results search = .ok res) :
    ∀ n ∈ res, (n.price_cents : ℚ) / 100 ≤ B := by
  rcases search_haircuts_internal_ok h with ⟨pw, _, rfl⟩
  intro n hn
  have h1 : n ∈ List.insertionSort slot_le
      (normalize_slots fuzz now
        (raw_results.filter (keep_slot search.budget_max pw)) search) :=
    (pyslice_sublist _ _).subset hn
  have h2 : n ∈ normalize_slots fuzz now
      (raw_results.filter (keep_slot search.budget_max pw)) search :=
    ((List.perm_insertionSort slot_le _).mem_iff).mp h1
  unfold normalize_slots at h2
  rcases List.mem_map.mp h2 with ⟨s, hs, rfl⟩
  have h3 : keep_slot search.budget_max pw s = true := (List.mem_filter.mp hs).2
  unfold keep_slot at h3
  rw [hB] at h3
  simp only [Bool.and_eq_true, Bool.not_eq_true', decide_eq_false_iff_not,
    not_lt] at h3
  exact h3.1

/-- C4 witness: a 40-dollar slot under a 50-dollar budget survives the
pipeline and indeed costs at most 50 dollars. -/
theorem C4_budget_respected_witness :
    ((normalize_one fuzz0 0 reqBudget exSlotC).price_cents : ℚ) / 100 ≤ 50 := by
  have hkeep : keep_slot reqBudget.budget_max none exSlotC = true := by
    unfold keep_slot reqBudget exSlotC
    norm_num
  have hres : search_haircuts_internal fuzz0 dtp0 0 [exSlotC] reqBudget =
      .ok [normalize_one fuzz0 0 reqBudget exSlotC] := by
    show Except.ok (pyslice (List.insertionSort slot_le
        (normalize_slots fuzz0 0 ([exSlotC].filter
          (keep_slot reqBudget.budget_max none)) reqBudget)) 25) = _
    rw [show [exSlotC].filter (keep_slot reqBudget.budget_max none) = [exSlotC] from by
      rw [List.filter_cons_of_pos hkeep]; rfl]
    rfl
  exact C4_budget_respected fuzz0 dtp0 0 [exSlotC] reqBudget
    [normalize_one fuzz0 0 reqBudget exSlotC] 50 rfl hres
    (normalize_one fuzz0 0 reqBudget exSlotC) (List.mem_singleton.mpr rfl)

/-- C2 (code bug): the query interpreter is not total.  On the query
`"cut with "` — where the substring `"with "` is followed by no token —
the stylist extraction indexes `split()[0]` of an empty list and raises
`IndexError` instead of returning a `SearchRequest`. -/
theorem C2_interpreter_raises :
    conversational_to_search (some "cut with ") = .error .indexError := by
  rfl

/-- C5 (amended): the earliness term contributes exactly 0.2 if and only
if the slot's start time is strictly before the current instant plus 24
hours — there is no lower bound, so a slot starting before the current
instant also receives the bonus — and contributes 0 otherwise. -/
theorem C5_early_bonus (now : ℤ) (slot : AppointmentSlot) :
    (early_bonus now slot = 2 / 10 ↔ slot.start_time < now + 86400) ∧
      (early_bonus now slot = 0 ↔ ¬ slot.start_time < now + 86400) := by
  unfold early_bonus
  split_ifs with h
  · exact ⟨⟨fun _ => h, fun _ => rfl⟩, ⟨fun h2 => absurd h2.symm (by norm_num),
      fun h2 => absurd h h2⟩⟩
  · exact ⟨⟨fun h2 => absurd h2 (by norm_num), fun h2 => absurd h2 h⟩,
      ⟨fun _ => h, fun _ => rfl⟩⟩

/-- C5 counterexample: a slot starting one hour before the instant `0`
receives the 0.2 earliness bonus, so the bonus is not equivalent to the
start lying strictly within the next 24 hours (after now and before
now + 24h). -/
theorem C5_early_bonus_counterexample :
    ¬ (early_bonus 0 slotPast = 2 / 10 ↔
        (0 < slotPast.start_time ∧ slotPast.start_time < 0 + 86400)) := by
  intro h
  have h1 : early_bonus 0 slotPast = 2 / 10 := by
    unfold early_bonus slotPast
    norm_num
  exact absurd (h.mp h1).1 (by decide)

/-- C6 (amended): the proximity term equals
`0.5 × max(0, 1 − (|Δlat| + |Δlng|)/0.1)` whenever the search provides
both coordinates (any values, including 0.0) and the slot provides both
coordinates with values other than 0.0; it equals 0 whenever one of the
four coordinates is absent or a slot coordinate equals 0.0 (the code
tests the slot coordinates for Python truthiness, so 0.0 behaves like an
absent slot coordinate). -/
theorem C6_proximity_term (slot : AppointmentSlot) (search : SearchRequest) :
    (∀ qlat qlng la lo, search.lat = some qlat → search.lng = some qlng →
      slot.latitude = some la → slot.longitude = some lo → la ≠ 0 → lo ≠ 0 →
      (5 / 10) * proximity slot search =
        (5 / 10) * max 0 (1 - (|la - qlat| + |lo - qlng|) / (1 / 10))) ∧
    ((search.lat = none ∨ search.lng = none ∨ slot.latitude = none ∨
        slot.longitude = none ∨ slot.latitude = some 0 ∨ slot.longitude = some 0) →
      (5 / 10) * proximity slot search = 0) := by
  constructor
  · intro qlat qlng la lo h1 h2 h3 h4 h5 h6
    unfold proximity
    rw [h1, h2, h3, h4]
    simp only [if_neg (by push_neg; exact ⟨h5, h6⟩ : ¬ (la = 0 ∨ lo = 0))]
  · intro hcase
    unfold proximity
    rcases hcase with h | h | h | h | h | h <;>
      cases hy : search.lat <;> cases hz : search.lng <;>
      cases hw : slot.latitude <;> cases hv : slot.longitude <;>
      simp_all

/-- C7: the temporal phrase parser never propagates an error: for every
date-parser collaborator, clock and input it returns `ok`; absent or
empty input yields `none`; and whenever the parse body (including the
fallback fuzzy parser) raises, the result degrades to `ok none`. -/
theorem C7_parse_when_total (dtp : String → ℤ → Except PyErr ℤ) (now : ℤ)
    (when_text : Option String) :
    (∃ r, parse_when_text dtp now when_text = .ok r) ∧
      (when_text = none → parse_when_text dtp now when_text = .ok none) ∧
      (when_text = some "" → parse_when_text dtp now when_text = .ok none) ∧
      (∀ s e, when_text = some s →
        parse_when_body dtp now (pyTrim (pyLower s)) s = .error e →
        parse_when_text dtp now when_text = .ok none) := by
  cases when_text with
  | none => exact ⟨⟨none, rfl⟩, fun _ => rfl, fun h => Option.noConfusion h,
      fun s e h => Option.noConfusion h⟩
  | some s =>
    by_cases hs : s = ""
    · subst hs
      exact ⟨⟨none, rfl⟩, fun h => Option.noConfusion h, fun _ => rfl,
        fun s' e h _ => rfl⟩
    · have hsome : parse_when_text dtp now (some s) =
          (if s = "" then .ok none
           else match parse_when_body dtp now (pyTrim (pyLower s)) s with
             | .ok t => .ok (some t)
             | .error _ => .ok none) := rfl
      cases hb : parse_when_body dtp now (pyTrim (pyLower s)) s with
      | ok t =>
        have hres : parse_when_text dtp now (some s) = .ok (some t) := by
          rw [hsome, if_neg hs, hb]
        exact ⟨⟨some t, hres⟩, fun h => Option.noConfusion h,
          fun h => absurd (Option.some.inj h) hs, fun s' e hs' he => by
            cases Option.some.inj hs'
            rw [hb] at he
            exact Except.noConfusion he⟩
      | error e =>
        have hres : parse_when_text dtp now (some s) = .ok none := by
          rw [hsome, if_neg hs, hb]
        exact ⟨⟨none, hres⟩, fun h => Option.noConfusion h,
          fun h => absurd (Option.some.inj h) hs, fun _ _ _ _ => hres⟩

/-- C6 counterexample: a search at (0.0, 0.0) and a slot at (0.0, 0.0)
have all four coordinates present, yet the proximity term is 0, not the
0.5 × max(0, 1 − 0/0.1) = 0.5 the claim requires. -/
theorem C6_proximity_counterexample :
    slotZero.latitude = some 0 ∧ slotZero.longitude = some 0 ∧
      searchZero.lat = some 0 ∧ searchZero.lng = some 0 ∧
      (5 / 10 : ℚ) * proximity slotZero searchZero ≠
        (5 / 10) * max 0 (1 - ((|(0 : ℚ) - 0| + |(0 : ℚ) - 0|) / (1 / 10))) := by
  refine ⟨rfl, rfl, rfl, rfl, ?_⟩
  have h0 : proximity slotZero searchZero = 0 := by
    unfold proximity slotZero searchZero
    simp
  rw [h0]
  norm_num

/-- C8: every slot the normaliser emits originates from an input raw slot,
and its `score` field is exactly the scoring function's output on that
raw slot and the search request (the `or 0.0` default never substitutes a
different value for a computed score). -/
theorem C8_score_is_computed (fuzz : String → String → ℚ) (now : ℤ)
    (search : SearchRequest) (slots : List AppointmentSlot)
    (n : NormalizedSlot) (h : n ∈ normalize_slots fuzz now slots search) :
    ∃ s, s ∈ slots ∧ n = normalize_one fuzz now search s ∧
      n.score = compute_score fuzz now s search := by
  unfold normalize_slots at h
  rcases List.mem_map.mp h with ⟨s, hs, rfl⟩
  exact ⟨s, hs, rfl, normalize_one_score fuzz now search s⟩

/-- C8 witness: the slot normalised from `exSlotA` carries exactly the
computed score. -/
theorem C8_score_is_computed_witness :
    ∃ s, s ∈ [exSlotA] ∧
      normalize_one fuzz0 0 ({} : SearchRequest) exSlotA = normalize_one fuzz0 0 {} s ∧
      (normalize_one fuzz0 0 ({} : SearchRequest) exSlotA).score =
        compute_score fuzz0 0 s {} :=
  C8_score_is_computed fuzz0 0 {} [exSlotA] (normalize_one fuzz0 0 {} exSlotA)
    (by simp [normalize_slots])

/-- C9 (amended): when the lowered query contains `"with "` followed by at
least one whitespace-delimited token, the interpreter succeeds and sets
the stylist hint to that first token with the punctuation characters
`.`, `,`, `!` stripped from BOTH ends (Python `str.strip` removes leading
punctuation too, not only trailing). -/
theorem C9_stylist_extraction (query : String) (rest t : List Char)
    (ts : List (List Char))
    (h2 : afterFirst "with ".toList (pyLower query).toList = some rest)
    (h3 : wsSplitAux rest [] = t :: ts) :
    ∃ r, conversational_to_search (some query) = .ok r ∧
      r.stylist = some (String.mk (pyStripChars ".,!".toList t)) := by
  by_cases hq : query = ""
  · subst hq
    rw [show afterFirst "with ".toList (pyLower "").toList = none from rfl] at h2
    exact Option.noConfusion h2
  · have hred : conversational_to_search (some query) =
        (if query = "" then .ok {}
         else
           let q := pyLower query
           let budget : Option ℚ :=
             (pySplitWs (pyRemoveChar ',' (pyRemoveChar '$' q))).foldl
               (fun b tok =>
                 if pyIsDigit tok then
                   if pyInt tok < 200 then some ((pyInt tok : ℚ)) else b
                 else b)
               none
           let service : Option String :=
             if pyInStr "fade" q then some "fade"
             else if pyInStr "women" q then some "Women's Cut"
             else if pyInStr "men" q then some "Men's Cut"
             else none
           let whenv : Option String :=
             if pyInStr "today" q ∨ pyInStr "asap" q then some "today"
             else if pyInStr "tomorrow" q then some "tomorrow"
             else none
           let stylistE : Except PyErr (Option String) :=
             match afterFirst "with ".toList q.toList with
             | none => .ok none
             | some rest =>
               match wsSplitAux rest [] with
               | [] => .error .indexError
               | t :: _ => .ok (some (String.mk (pyStripChars ".,!".toList t)))
           match stylistE with
           | .error e => .error e
           | .ok stylist =>
             .ok { query := some query, budget_max := budget, service := service,
                   when := whenv, stylist := stylist, lat := none, lng := none }) := rfl
    rw [hred, if_neg hq]
    simp only [h2, h3]
    exact ⟨_, rfl, rfl⟩

/-- C9 witness: on `"book with anna."` the interpreter succeeds and the
stylist hint is the token `"anna."` with trailing punctuation stripped. -/
theorem C9_stylist_extraction_witness :
    ∃ r, conversational_to_search (some "book with anna.") = .ok r ∧
      r.stylist = some (String.mk (pyStripChars ".,!".toList "anna.".toList)) :=
  C9_stylist_extraction "book with anna." "anna.".toList "anna.".toList [] rfl rfl

/-- C9 counterexample: on `"cut with !alex"` the extracted stylist is
`"alex"` — the leading `!` is removed as well — not the `"!alex"` that
trailing-only stripping would leave. -/
theorem C9_strip_counterexample :
    result_stylist (conversational_to_search (some "cut with !alex")) = some "alex" ∧
      some "alex" ≠ some "!alex" :=
  ⟨rfl, by decide⟩

/-- C10: the normaliser is a frame-preserving map: its output has the
same length and order as its input, and every output slot copies
provider, location name, service name, stylist name, start time,
duration, price, currency, coordinates and booking URL unchanged from its
originating raw slot, with only the `id` newly composed and the `score`
newly computed. -/
theorem C10_normalize_frame (fuzz : String → String → ℚ) (now : ℤ)
    (search : SearchRequest) (slots : List AppointmentSlot) :
    (normalize_slots fuzz now slots search).length = slots.length ∧
      ∀ (i : ℕ) (h1 : i < slots.length)
        (h2 : i < (normalize_slots fuzz now slots search).length),
        ((normalize_slots fuzz now slots search).get ⟨i, h2⟩).provider =
            (slots.get ⟨i, h1⟩).provider ∧
          ((normalize_slots fuzz now slots search).get ⟨i, h2⟩).location_name =
            (slots.get ⟨i, h1⟩).provider_location_name ∧
          ((normalize_slots fuzz now slots search).get ⟨i, h2⟩).service_name =
            (slots.get ⟨i, h1⟩).service_name ∧
          ((normalize_slots fuzz now slots search).get ⟨i, h2⟩).stylist_name =
            (slots.get ⟨i, h1⟩).stylist_name ∧
          ((normalize_slots fuzz now slots search).get ⟨i, h2⟩).start_time =
            (slots.get ⟨i, h1⟩).start_time ∧
          ((normalize_slots fuzz now slots search).get ⟨i, h2⟩).duration_minutes =
            (slots.get ⟨i, h1⟩).duration_minutes ∧
          ((normalize_slots fuzz now slots search).get ⟨i, h2⟩).price_cents =
            (slots.get ⟨i, h1⟩).price_cents ∧
          ((normalize_slots fuzz now slots search).get ⟨i, h2⟩).currency =
            (slots.get ⟨i, h1⟩).currency ∧
          ((normalize_slots fuzz now slots search).get ⟨i, h2⟩).latitude =
            (slots.get ⟨i, h1⟩).latitude ∧
          ((normalize_slots fuzz now slots search).get ⟨i, h2⟩).longitude =
            (slots.get ⟨i, h1⟩).longitude ∧
          ((normalize_slots fuzz now slots search).get ⟨i, h2⟩).book_url =
            (slots.get ⟨i, h1⟩).provider_url ∧
          ((normalize_slots fuzz now slots search).get ⟨i, h2⟩).id =
            (slots.get ⟨i, h1⟩).provider ++ ":" ++
              pyStrOfOpt (slots.get ⟨i, h1⟩).provider_internal_id ∧
          ((normalize_slots fuzz now slots search).get ⟨i, h2⟩).score =
            compute_score fuzz now (slots.get ⟨i, h1⟩) search := by
  refine ⟨by simp [normalize_slots], fun i h1 h2 => ?_⟩
  have hget : (normalize_slots fuzz now slots search).get ⟨i, h2⟩ =
      normalize_one fuzz now search (slots.get ⟨i, h1⟩) := by
    simp [normalize_slots]
  rw [hget]
  exact ⟨rfl, rfl, rfl, rfl, rfl, rfl, rfl, rfl, rfl, rfl, rfl, rfl,
    normalize_one_score fuzz now search _⟩

end ITY
